import Mathlib

/-!
Verification of the sandboxed arithmetic-expression evaluator in
`src/imp-met/tool.py` (function `evaluate` and its inner `_walk`,
dictionaries `OPERATORS` and `UNARY_OPERATORS`).

Modelling conventions:
* Python `int` is `ℤ` (unbounded, exact — matches CPython).
* Python `float` is idealised as an exact rational `ℚ`.  Binary64 rounding
  and overflow are not modelled; every concrete value appearing in a theorem
  below is exactly representable in binary64, where the two semantics agree.
  A float produced by `**` with a non-integral exponent is in general
  irrational; the model tracks it as the opaque value `PyNum.floatApprox`
  ("some finite positive float whose exact value the rational idealisation
  does not determine") rather than inventing a rational for it.
* Python `bool` is a subclass of `int`: `isinstance(True, int)` is `True`,
  `True + 1 == 2`, `float(True) == 1.0`.  The model keeps a separate
  `boolV` constructor and coerces it to `0`/`1` exactly where CPython does.
* A `**` with negative base and non-integral exponent yields a `complex`
  in Python 3; the model tracks such values as `PyNum.complexV` (the
  numeric payload is irrelevant: the only observation the program makes of
  a complex value is the failing `float(...)` conversion and arithmetic
  that stays complex).
* Exceptions are modelled with `Except PyError`; `PyError` distinguishes
  `ValueError` (everything `tool.py` itself raises), `ZeroDivisionError`
  and `TypeError` (raised by the Python runtime inside arithmetic and
  `float(...)`, and not caught by `tool.py`).
-/

namespace ImpMet

/-- Python exception values that can escape `evaluate`, with their message. -/
inductive PyError where
  | valueError (msg : String)
  | zeroDivisionError (msg : String)
  | typeError (msg : String)
deriving DecidableEq, Repr

/-- Runtime numeric values flowing through `_walk` (Python int/bool/float,
plus the two opaque classes described in the header). -/
inductive PyNum where
  | intV (n : ℤ)
  | boolV (b : Bool)
  | floatV (q : ℚ)
  | floatApprox
  | complexV
deriving DecidableEq, Repr

/-- Result of the final `float(result)` conversion: an exact rational, or a
finite float whose exact value the rational idealisation left undetermined. -/
inductive PyFloat where
  | exact (q : ℚ)
  | approx
deriving DecidableEq, Repr

instance {ε α : Type} [DecidableEq ε] [DecidableEq α] : DecidableEq (Except ε α) := fun
  | .error a, .error b =>
    if h : a = b then .isTrue (by rw [h]) else .isFalse (fun hh => h (Except.error.inj hh))
  | .ok a, .ok b =>
    if h : a = b then .isTrue (by rw [h]) else .isFalse (fun hh => h (Except.ok.inj hh))
  | .error _, .ok _ => .isFalse (fun hh => Except.noConfusion hh)
  | .ok _, .error _ => .isFalse (fun hh => Except.noConfusion hh)

/-!
Rational arithmetic, written out over `mkRat` on numerators and
denominators.  The library's `Rat.add`/`Rat.mul`/… are `@[irreducible]`, so
concrete evaluations below could not go through `decide` with them; these
are the standard field operations on `ℚ` (each is proved equal to the
library operation in `qAdd_eq` and friends below), and they evaluate in the
kernel. -/

/-- `ℤ → ℚ`, kernel-computable. -/
def ratOfInt (m : ℤ) : ℚ := mkRat m 1

/-- `ℕ → ℚ`, kernel-computable. -/
def ratOfNat (n : ℕ) : ℚ := mkRat (Int.ofNat n) 1

/-- Addition on `ℚ`: `a.num/a.den + b.num/b.den`. -/
def qAdd (a b : ℚ) : ℚ :=
  mkRat (a.num * Int.ofNat b.den + b.num * Int.ofNat a.den) (a.den * b.den)

/-- Subtraction on `ℚ`. -/
def qSub (a b : ℚ) : ℚ :=
  mkRat (a.num * Int.ofNat b.den - b.num * Int.ofNat a.den) (a.den * b.den)

/-- Multiplication on `ℚ`. -/
def qMul (a b : ℚ) : ℚ := mkRat (a.num * b.num) (a.den * b.den)

/-- Negation on `ℚ`. -/
def qNeg (a : ℚ) : ℚ := mkRat (-a.num) a.den

/-- Division on `ℚ`: `(a.num * b.den) / (a.den * b.num)`, with the sign
moved into the numerator (`0` on a zero divisor, like `Rat.div`; all uses
below guard the divisor first). -/
def qDiv (a b : ℚ) : ℚ :=
  mkRat (a.num * Int.ofNat b.den * (if b.num < 0 then -1 else 1)) (a.den * b.num.natAbs)

/-- Kernel-computable natural power on `ℚ` (iterated `qMul`). -/
def ratNpow (q : ℚ) : ℕ → ℚ
  | 0 => mkRat 1 1
  | n + 1 => qMul (ratNpow q n) q

/-- Kernel-computable integer power on `ℚ`. -/
def ratZpow (q : ℚ) (z : ℤ) : ℚ :=
  if 0 ≤ z then ratNpow q z.toNat else qDiv (mkRat 1 1) (ratNpow q (-z).toNat)

/-- The integer value of a Python int-like value (`int` or `bool`). -/
def PyNum.toIntZ : PyNum → Option ℤ
  | .intV n => some n
  | .boolV b => some (cond b 1 0)
  | _ => none

/-- The exact rational value of a `PyNum`, when the model determines one. -/
def PyNum.qVal : PyNum → Option ℚ
  | .intV n => some (ratOfInt n)
  | .boolV b => some (cond b (mkRat 1 1) (mkRat 0 1))
  | .floatV q => some q
  | _ => none

/-- Whether the value is a Python `int` (including `bool`). -/
def PyNum.isIntLike : PyNum → Bool
  | .intV _ => true
  | .boolV _ => true
  | _ => false

/-- Shared shape of Python's `+`, `-`, `*` on our value class: int op int is
int, anything involving a float is float, opaque values stay opaque
(complex dominates). -/
def pyArith (f : ℤ → ℤ → ℤ) (g : ℚ → ℚ → ℚ) (a b : PyNum) : PyNum :=
  match a.toIntZ, b.toIntZ with
  | some m, some n => .intV (f m n)
  | _, _ =>
    match a.qVal, b.qVal with
    | some x, some y => .floatV (g x y)
    | _, _ => if a = .complexV ∨ b = .complexV then .complexV else .floatApprox

/-- Python `operator.add` on the values reachable here. -/
def pyAdd (a b : PyNum) : PyNum := pyArith (· + ·) qAdd a b

/-- Python `operator.sub` on the values reachable here. -/
def pySub (a b : PyNum) : PyNum := pyArith (· - ·) qSub a b

/-- Python `operator.mul` on the values reachable here. -/
def pyMul (a b : PyNum) : PyNum := pyArith (· * ·) qMul a b

/-- Python `operator.truediv`: always a float on numeric operands; raises
`ZeroDivisionError` when the divisor is zero (CPython raises, it does NOT
return IEEE infinity).  The opaque values `floatApprox`/`complexV` are
nonzero by construction (see `pyPow`), so a divisor of that shape is
treated as nonzero. -/
def pyDiv (a b : PyNum) : Except PyError PyNum :=
  match b.qVal with
  | some y =>
    if y = 0 then
      .error (.zeroDivisionError
        (if a = .complexV then "complex division by zero"
         else if a.isIntLike && b.isIntLike then "division by zero"
         else "float division by zero"))
    else
      match a.qVal with
      | some x => .ok (.floatV (qDiv x y))
      | none => .ok (if a = .complexV then .complexV else .floatApprox)
  | none => .ok (if a = .complexV ∨ b = .complexV then .complexV else .floatApprox)

/-- Python `operator.pow` (`**`).  int ** non-negative int is an int;
int ** negative int is a float; a float operand makes the result a float
when the exponent is integral; a negative base with a non-integral exponent
yields a `complex` (Python 3 semantics — NOT NaN); `0 ** negative` raises
`ZeroDivisionError`.  A positive base with a non-integral exponent is a
positive float the rational idealisation does not determine
(`floatApprox`). -/
def pyPow (a b : PyNum) : Except PyError PyNum :=
  match a.toIntZ, b.toIntZ with
  | some m, some n =>
    if 0 ≤ n then .ok (.intV (m ^ n.toNat))
    else if m = 0 then
      .error (.zeroDivisionError "0.0 cannot be raised to a negative power")
    else .ok (.floatV (ratZpow (ratOfInt m) n))
  | _, _ =>
    match a.qVal, b.qVal with
    | some x, some e =>
      -- sign tests on a rational are the sign tests on its numerator,
      -- which the kernel can evaluate
      if e.den = 1 then
        if x.num = 0 ∧ e.num < 0 then
          .error (.zeroDivisionError "0.0 cannot be raised to a negative power")
        else .ok (.floatV (ratZpow x e.num))
      else if x.num < 0 then .ok .complexV
      else if x.num = 0 then
        if e.num < 0 then
          .error (.zeroDivisionError "0.0 cannot be raised to a negative power")
        else .ok (.floatV (mkRat 0 1))
      else .ok .floatApprox
    | _, _ =>
      if a = .complexV ∨ b = .complexV then .ok .complexV
      else
        match a.qVal with
        | some x => if x.num < 0 then .ok .complexV else .ok .floatApprox
        | none => .ok .floatApprox

/-- Python `operator.neg` on the values reachable here (`-True == -1`). -/
def pyNeg : PyNum → PyNum
  | .intV n => .intV (-n)
  | .boolV b => .intV (-(cond b 1 0))
  | .floatV q => .floatV (qNeg q)
  | .floatApprox => .floatApprox
  | .complexV => .complexV

/-- Constant payloads of `ast.Constant` nodes reachable from the modelled
parser (numbers, strings, booleans, `None`). -/
inductive PyConst where
  | intC (n : ℤ)
  | floatC (q : ℚ)
  | strC (s : String)
  | boolC (b : Bool)
  | noneC
deriving DecidableEq, Repr

/-- `type(node.value).__name__` for a constant payload. -/
def PyConst.typeName : PyConst → String
  | .intC _ => "int"
  | .floatC _ => "float"
  | .strC _ => "str"
  | .boolC _ => "bool"
  | .noneC => "NoneType"

/-- The binary-operator node classes of the `ast` module that the modelled
parser can emit (`tool.py` supports only the first five). -/
inductive BinOpKind where
  | Add | Sub | Mult | Div | FloorDiv | Mod | Pow
  | LShift | RShift | BitAnd | BitOr | BitXor
deriving DecidableEq, Repr

/-- `type(node.op).__name__` for a binary operator node. -/
def BinOpKind.opClassName : BinOpKind → String
  | .Add => "Add"
  | .Sub => "Sub"
  | .Mult => "Mult"
  | .Div => "Div"
  | .FloorDiv => "FloorDiv"
  | .Mod => "Mod"
  | .Pow => "Pow"
  | .LShift => "LShift"
  | .RShift => "RShift"
  | .BitAnd => "BitAnd"
  | .BitOr => "BitOr"
  | .BitXor => "BitXor"

/-- The unary-operator node classes of the `ast` module that the modelled
parser can emit (`tool.py` supports only the first two). -/
inductive UnaryOpKind where
  | UAdd | USub | Invert
deriving DecidableEq, Repr

/-- `type(node.op).__name__` for a unary operator node. -/
def UnaryOpKind.opClassName : UnaryOpKind → String
  | .UAdd => "UAdd"
  | .USub => "USub"
  | .Invert => "Invert"

/-- Python `ast` expression nodes reachable from the modelled parser in
`mode="eval"`.  `Expression` is the module-level wrapper `ast.parse`
returns in that mode. -/
inductive Ast where
  | Expression (body : Ast)
  | BinOp (op : BinOpKind) (l r : Ast)
  | UnaryOp (op : UnaryOpKind) (e : Ast)
  | Constant (c : PyConst)
  | Name (id : String)
  | Call (f : Ast) (args : List Ast)
  | IfExp (test body orelse : Ast)
  | ListDisp (elts : List Ast)
  | SetDisp (elts : List Ast)
  | DictDisp
  | ListComp (elt : Ast) (target : String) (iter : Ast)
deriving Repr

/-- `type(node).__name__` for an AST node. -/
def Ast.nodeClassName : Ast → String
  | .Expression _ => "Expression"
  | .BinOp _ _ _ => "BinOp"
  | .UnaryOp _ _ => "UnaryOp"
  | .Constant _ => "Constant"
  | .Name _ => "Name"
  | .Call _ _ => "Call"
  | .IfExp _ _ _ => "IfExp"
  | .ListDisp _ => "List"
  | .SetDisp _ => "Set"
  | .DictDisp => "Dict"
  | .ListComp _ _ _ => "ListComp"

/-- The `OPERATORS` dictionary of `tool.py`: the five supported binary
operator classes mapped to their `operator`-module functions; `.get` on any
other class returns `None`. -/
def OPERATORS : BinOpKind → Option (PyNum → PyNum → Except PyError PyNum)
  | .Add => some (fun a b => .ok (pyAdd a b))
  | .Sub => some (fun a b => .ok (pySub a b))
  | .Mult => some (fun a b => .ok (pyMul a b))
  | .Div => some pyDiv
  | .Pow => some pyPow
  | _ => none

/-- The `UNARY_OPERATORS` dictionary of `tool.py`: `UAdd ↦ lambda x: x`,
`USub ↦ operator.neg`; `.get` on any other class returns `None`. -/
def UNARY_OPERATORS : UnaryOpKind → Option (PyNum → PyNum)
  | .UAdd => some (fun x => x)
  | .USub => some pyNeg
  | _ => none

/-- The inner `_walk` of `tool.py`.  Mirrors the source case by case:
unwrap `Expression`; on `BinOp` evaluate both children first, then look the
operator class up in `OPERATORS` and raise
`ValueError("Unsupported binary operator: ...")` on a miss; same for
`UnaryOp` with `UNARY_OPERATORS`; a `Constant` whose payload satisfies
`isinstance(value, (int, float))` — which includes `bool` — is returned as
is, any other payload raises
`ValueError("Unsupported constant type: ...")`; every other node class
raises `ValueError("Unsupported AST node: ...")`. -/
def walk : Ast → Except PyError PyNum
  | .Expression b => walk b
  | .BinOp op l r =>
    match walk l with
    | .error e => .error e
    | .ok left =>
      match walk r with
      | .error e => .error e
      | .ok right =>
        match OPERATORS op with
        | none => .error (.valueError ("Unsupported binary operator: " ++ op.opClassName))
        | some f => f left right
  | .UnaryOp op e =>
    match walk e with
    | .error err => .error err
    | .ok v =>
      match UNARY_OPERATORS op with
      | none => .error (.valueError ("Unsupported unary operator: " ++ op.opClassName))
      | some f => .ok (f v)
  | .Constant c =>
    match c with
    | .intC n => .ok (.intV n)
    | .floatC q => .ok (.floatV q)
    | .boolC b => .ok (.boolV b)
    | c => .error (.valueError ("Unsupported constant type: " ++ c.typeName))
  | n => .error (.valueError ("Unsupported AST node: " ++ n.nodeClassName))

/-- Python's `float(...)` applied to the result of `_walk`: int-likes and
floats convert, a complex value raises `TypeError`. -/
def pyFloatConv : PyNum → Except PyError PyFloat
  | .intV n => .ok (.exact (ratOfInt n))
  | .boolV b => .ok (.exact (cond b (mkRat 1 1) (mkRat 0 1)))
  | .floatV q => .ok (.exact q)
  | .floatApprox => .ok .approx
  | .complexV => .error (.typeError "can't convert complex to float")

/-!
Model of Python's `ast.parse(expr_str, mode="eval")`, the external parsing
facility `tool.py` relies on.  It is modelled as tokenisation plus a
precedence-climbing parse over the expression forms exercised by this
development: numeric literals (integer, decimal, scientific), string
literals, the keywords `True`/`False`/`None` and the `if`/`else`/`for`/`in`
of conditional expressions and list comprehensions, names, calls,
parentheses, list/set/empty-dict displays, unary `+ - ~`, and the binary
operators `+ - * / // % ** << >> & | ^` at Python's precedence (with `**`
right-associative and binding looser than a unary sign on its right
operand).  Forms outside this subset (e.g. `lambda`, comparisons, boolean
`and`/`or`, slicing) are reported as syntax errors; `tool.py` maps both
syntax errors and disallowed nodes to `ValueError`, and no claim below
depends on the distinction outside the modelled subset. -/

/-- Tokens of the modelled Python expression lexer. -/
inductive Tok where
  | intTok (n : ℤ)
  | floatTok (q : ℚ)
  | strTok (s : String)
  | kwTok (s : String)
  | nameTok (s : String)
  | opTok (s : String)
deriving DecidableEq, Repr

/-- ASCII whitespace recognised by the lexer and by `str.strip()`. -/
def isWsChar (c : Char) : Bool :=
  c = ' ' || c = '\t' || c = '\n' || c = '\r' || c = '\x0b' || c = '\x0c'

/-- First character of a Python identifier (ASCII subset). -/
def isIdentStart (c : Char) : Bool := c.isAlpha || c = '_'

/-- Continuation character of a Python identifier (ASCII subset). -/
def isIdentCont (c : Char) : Bool := c.isAlphanum || c = '_'

/-- Numeric value of a string of decimal digit characters. -/
def digitsVal (l : List Char) : ℕ :=
  l.foldl (fun a c => 10 * a + (c.toNat - 48)) 0

/-- Python's keyword list (a keyword can never be a `Name`). -/
def pyKeywords : List String :=
  ["False", "None", "True", "and", "as", "assert", "async", "await",
   "break", "class", "continue", "def", "del", "elif", "else", "except",
   "finally", "for", "from", "global", "if", "in", "is", "lambda",
   "nonlocal", "not", "or", "pass", "raise", "return", "try", "while",
   "with", "yield"]
  ++ ["import"]

/-- Lex a numeric literal beginning at the head of `l` (which starts with a
digit or with a dot followed by a digit): integer part, optional fraction,
optional exponent.  Returns the token and the remaining characters; `none`
on a malformed exponent. -/
def lexNum (l : List Char) : Option (Tok × List Char) :=
  let intPart := l.takeWhile Char.isDigit
  let rest1 := l.drop intPart.length
  let (fracPart, hasDot, rest2) :=
    match rest1 with
    | '.' :: r =>
      let f := r.takeWhile Char.isDigit
      (f, true, r.drop f.length)
    | _ => ([], false, rest1)
  match rest2 with
  | c :: r =>
    if c = 'e' || c = 'E' then
      let (sgn, r2) :=
        match r with
        | '+' :: r2 => ((1 : ℤ), r2)
        | '-' :: r2 => ((-1 : ℤ), r2)
        | _ => ((1 : ℤ), r)
      let expPart := r2.takeWhile Char.isDigit
      if expPart = [] then none
      else
        let e : ℤ := sgn * Int.ofNat (digitsVal expPart)
        let mant : ℚ :=
          qAdd (ratOfNat (digitsVal intPart))
            (qDiv (ratOfNat (digitsVal fracPart)) (ratOfNat (Nat.pow 10 fracPart.length)))
        some (.floatTok (qMul mant (ratZpow (ratOfNat 10) e)), r2.drop expPart.length)
    else
      if hasDot then
        some (.floatTok (qAdd (ratOfNat (digitsVal intPart))
          (qDiv (ratOfNat (digitsVal fracPart)) (ratOfNat (Nat.pow 10 fracPart.length)))), rest2)
      else some (.intTok (Int.ofNat (digitsVal intPart)), rest2)
  | [] =>
    if hasDot then
      some (.floatTok (qAdd (ratOfNat (digitsVal intPart))
        (qDiv (ratOfNat (digitsVal fracPart)) (ratOfNat (Nat.pow 10 fracPart.length)))), [])
    else some (.intTok (Int.ofNat (digitsVal intPart)), [])

/-- Lex a string literal body after the opening quote `q`, up to the
matching closing quote (escape sequences are outside the modelled subset;
no claim input contains one).  `none` when the quote is unterminated. -/
def lexStr (q : Char) (l : List Char) : Option (String × List Char) :=
  let body := l.takeWhile (fun c => ¬ (c = q || c = '\\'))
  match l.drop body.length with
  | c :: r => if c = q then some (⟨body⟩, r) else none
  | [] => none

/-- The two-character operator tokens, tried before single characters. -/
def twoCharOps : List String :=
  ["**", "//", "<<", ">>", "<=", ">=", "==", "!="]

/-- The single-character operator/punctuation tokens. -/
def oneCharOps : List Char :=
  ['+', '-', '*', '/', '%', '&', '|', '^', '~', '(', ')', '[', ']',
   '{', '}', ',', '<', '>', '=', ':', ';', '@', '.']

/-- Lex one token starting at the non-whitespace character `c` (with `cs`
the characters after it): numeric literal, identifier/keyword, string
literal, two-character operator, or single-character operator.  Returns
the token and the remaining characters; `none` on an unrecognised
character, a malformed exponent, or an unterminated string. -/
def lexOne (c : Char) (cs : List Char) : Option (Tok × List Char) :=
  if c.isDigit then lexNum (c :: cs)
  else if c = '.' && (match cs with | d :: _ => d.isDigit | [] => false) then
    lexNum (c :: cs)
  else if isIdentStart c then
    let identRest := cs.takeWhile isIdentCont
    let ident : String := ⟨c :: identRest⟩
    let rest := cs.drop identRest.length
    some (if pyKeywords.contains ident then Tok.kwTok ident else Tok.nameTok ident, rest)
  else if c = '\'' || c = '"' then
    match lexStr c cs with
    | some (s, rest) => some (.strTok s, rest)
    | none => none
  else
    match cs with
    | d :: cs' =>
      if twoCharOps.contains ⟨[c, d]⟩ then some (.opTok ⟨[c, d]⟩, cs')
      else if oneCharOps.contains c then some (.opTok ⟨[c]⟩, cs)
      else none
    | [] =>
      if oneCharOps.contains c then some (.opTok ⟨[c]⟩, [])
      else none

/-- The lexer loop: skip whitespace, then emit the next token.  `fuel`
only bounds the iteration count (each step consumes at least one
character, so `length + 1` steps always suffice). -/
def lexAux : ℕ → List Char → Option (List Tok)
  | 0, _ => none
  | _ + 1, [] => some []
  | fuel + 1, c :: cs =>
    if isWsChar c then lexAux fuel cs
    else
      match lexOne c cs with
      | some (t, rest) => (lexAux fuel rest).map (t :: ·)
      | none => none

/-- Tokenise a whole string. -/
def pyLex (s : String) : Option (List Tok) :=
  lexAux (s.data.length + 1) s.data

mutual

/-- Conditional expression: `a if c else e` (lowest precedence level of the
modelled subset). -/
def parseTernary : ℕ → List Tok → Option (Ast × List Tok)
  | 0, _ => none
  | f + 1, ts =>
    match parseBitOr f ts with
    | none => none
    | some (a, ts1) =>
      match ts1 with
      | .kwTok "if" :: ts2 =>
        match parseBitOr f ts2 with
        | none => none
        | some (c, ts3) =>
          match ts3 with
          | .kwTok "else" :: ts4 =>
            match parseTernary f ts4 with
            | none => none
            | some (e, ts5) => some (.IfExp c a e, ts5)
          | _ => none
      | _ => some (a, ts1)

/-- Bitwise or: left-associative `|` over `^`. -/
def parseBitOr : ℕ → List Tok → Option (Ast × List Tok)
  | 0, _ => none
  | f + 1, ts =>
    match parseBitXor f ts with
    | none => none
    | some (a, ts1) => parseBitOrRest f a ts1

/-- Continuation loop for `|`. -/
def parseBitOrRest : ℕ → Ast → List Tok → Option (Ast × List Tok)
  | 0, _, _ => none
  | f + 1, acc, .opTok "|" :: ts =>
    match parseBitXor f ts with
    | none => none
    | some (b, ts1) => parseBitOrRest f (.BinOp .BitOr acc b) ts1
  | _ + 1, acc, ts => some (acc, ts)

/-- Bitwise xor: left-associative `^` over `&`. -/
def parseBitXor : ℕ → List Tok → Option (Ast × List Tok)
  | 0, _ => none
  | f + 1, ts =>
    match parseBitAnd f ts with
    | none => none
    | some (a, ts1) => parseBitXorRest f a ts1

/-- Continuation loop for `^`. -/
def parseBitXorRest : ℕ → Ast → List Tok → Option (Ast × List Tok)
  | 0, _, _ => none
  | f + 1, acc, .opTok "^" :: ts =>
    match parseBitAnd f ts with
    | none => none
    | some (b, ts1) => parseBitXorRest f (.BinOp .BitXor acc b) ts1
  | _ + 1, acc, ts => some (acc, ts)

/-- Bitwise and: left-associative `&` over shifts. -/
def parseBitAnd : ℕ → List Tok → Option (Ast × List Tok)
  | 0, _ => none
  | f + 1, ts =>
    match parseShift f ts with
    | none => none
    | some (a, ts1) => parseBitAndRest f a ts1

/-- Continuation loop for `&`. -/
def parseBitAndRest : ℕ → Ast → List Tok → Option (Ast × List Tok)
  | 0, _, _ => none
  | f + 1, acc, .opTok "&" :: ts =>
    match parseShift f ts with
    | none => none
    | some (b, ts1) => parseBitAndRest f (.BinOp .BitAnd acc b) ts1
  | _ + 1, acc, ts => some (acc, ts)

/-- Shifts: left-associative `<<` / `>>` over additive expressions. -/
def parseShift : ℕ → List Tok → Option (Ast × List Tok)
  | 0, _ => none
  | f + 1, ts =>
    match parseArith f ts with
    | none => none
    | some (a, ts1) => parseShiftRest f a ts1

/-- Continuation loop for `<<` / `>>`. -/
def parseShiftRest : ℕ → Ast → List Tok → Option (Ast × List Tok)
  | 0, _, _ => none
  | f + 1, acc, .opTok "<<" :: ts =>
    match parseArith f ts with
    | none => none
    | some (b, ts1) => parseShiftRest f (.BinOp .LShift acc b) ts1
  | f + 1, acc, .opTok ">>" :: ts =>
    match parseArith f ts with
    | none => none
    | some (b, ts1) => parseShiftRest f (.BinOp .RShift acc b) ts1
  | _ + 1, acc, ts => some (acc, ts)

/-- Additive expressions: left-associative `+` / `-` over terms. -/
def parseArith : ℕ → List Tok → Option (Ast × List Tok)
  | 0, _ => none
  | f + 1, ts =>
    match parseTerm f ts with
    | none => none
    | some (a, ts1) => parseArithRest f a ts1

/-- Continuation loop for `+` / `-`. -/
def parseArithRest : ℕ → Ast → List Tok → Option (Ast × List Tok)
  | 0, _, _ => none
  | f + 1, acc, .opTok "+" :: ts =>
    match parseTerm f ts with
    | none => none
    | some (b, ts1) => parseArithRest f (.BinOp .Add acc b) ts1
  | f + 1, acc, .opTok "-" :: ts =>
    match parseTerm f ts with
    | none => none
    | some (b, ts1) => parseArithRest f (.BinOp .Sub acc b) ts1
  | _ + 1, acc, ts => some (acc, ts)

/-- Terms: left-associative `*`, `/`, `//`, `%` over factors. -/
def parseTerm : ℕ → List Tok → Option (Ast × List Tok)
  | 0, _ => none
  | f + 1, ts =>
    match parseFactor f ts with
    | none => none
    | some (a, ts1) => parseTermRest f a ts1

/-- Continuation loop for `*`, `/`, `//`, `%`. -/
def parseTermRest : ℕ → Ast → List Tok → Option (Ast × List Tok)
  | 0, _, _ => none
  | f + 1, acc, .opTok "*" :: ts =>
    match parseFactor f ts with
    | none => none
    | some (b, ts1) => parseTermRest f (.BinOp .Mult acc b) ts1
  | f + 1, acc, .opTok "/" :: ts =>
    match parseFactor f ts with
    | none => none
    | some (b, ts1) => parseTermRest f (.BinOp .Div acc b) ts1
  | f + 1, acc, .opTok "//" :: ts =>
    match parseFactor f ts with
    | none => none
    | some (b, ts1) => parseTermRest f (.BinOp .FloorDiv acc b) ts1
  | f + 1, acc, .opTok "%" :: ts =>
    match parseFactor f ts with
    | none => none
    | some (b, ts1) => parseTermRest f (.BinOp .Mod acc b) ts1
  | _ + 1, acc, ts => some (acc, ts)

/-- Factors: prefix unary `+`/`-`/`~` (Python grammar rule
`factor: ('+'|'-'|'~') factor | power`). -/
def parseFactor : ℕ → List Tok → Option (Ast × List Tok)
  | 0, _ => none
  | f + 1, .opTok "+" :: ts =>
    match parseFactor f ts with
    | none => none
    | some (e, ts1) => some (.UnaryOp .UAdd e, ts1)
  | f + 1, .opTok "-" :: ts =>
    match parseFactor f ts with
    | none => none
    | some (e, ts1) => some (.UnaryOp .USub e, ts1)
  | f + 1, .opTok "~" :: ts =>
    match parseFactor f ts with
    | none => none
    | some (e, ts1) => some (.UnaryOp .Invert e, ts1)
  | f + 1, ts => parsePower f ts

/-- Power: `power: atom_expr ['**' factor]` — right-associative, and the
right operand may carry a unary sign. -/
def parsePower : ℕ → List Tok → Option (Ast × List Tok)
  | 0, _ => none
  | f + 1, ts =>
    match parseAtomExpr f ts with
    | none => none
    | some (a, ts1) =>
      match ts1 with
      | .opTok "**" :: ts2 =>
        match parseFactor f ts2 with
        | none => none
        | some (b, ts3) => some (.BinOp .Pow a b, ts3)
      | _ => some (a, ts1)

/-- Atom followed by call trailers (`f(args)`). -/
def parseAtomExpr : ℕ → List Tok → Option (Ast × List Tok)
  | 0, _ => none
  | f + 1, ts =>
    match parseAtom f ts with
    | none => none
    | some (a, ts1) => parseTrailers f a ts1

/-- Loop consuming `(...)` call trailers. -/
def parseTrailers : ℕ → Ast → List Tok → Option (Ast × List Tok)
  | 0, _, _ => none
  | f + 1, acc, .opTok "(" :: ts =>
    match ts with
    | .opTok ")" :: ts1 => parseTrailers f (.Call acc []) ts1
    | _ =>
      match parseArgs f ts with
      | none => none
      | some (args, ts1) =>
        match ts1 with
        | .opTok ")" :: ts2 => parseTrailers f (.Call acc args) ts2
        | _ => none
  | _ + 1, acc, ts => some (acc, ts)

/-- Comma-separated argument/element list (at least one element; a trailing
comma is allowed). -/
def parseArgs : ℕ → List Tok → Option (List Ast × List Tok)
  | 0, _ => none
  | f + 1, ts =>
    match parseTernary f ts with
    | none => none
    | some (e, ts1) =>
      match ts1 with
      | .opTok "," :: ts2 =>
        match ts2 with
        | .opTok ")" :: _ => some ([e], ts2)
        | .opTok "]" :: _ => some ([e], ts2)
        | .opTok "\x7d" :: _ => some ([e], ts2)
        | _ =>
          match parseArgs f ts2 with
          | none => none
          | some (es, ts3) => some (e :: es, ts3)
      | _ => some ([e], ts1)

/-- Atoms: literals, `True`/`False`/`None`, names, parenthesised
expressions, list displays and comprehensions, set and empty-dict
displays. -/
def parseAtom : ℕ → List Tok → Option (Ast × List Tok)
  | 0, _ => none
  | _ + 1, .intTok n :: ts => some (.Constant (.intC n), ts)
  | _ + 1, .floatTok q :: ts => some (.Constant (.floatC q), ts)
  | _ + 1, .strTok s :: ts => some (.Constant (.strC s), ts)
  | _ + 1, .kwTok "True" :: ts => some (.Constant (.boolC true), ts)
  | _ + 1, .kwTok "False" :: ts => some (.Constant (.boolC false), ts)
  | _ + 1, .kwTok "None" :: ts => some (.Constant .noneC, ts)
  | _ + 1, .nameTok x :: ts => some (.Name x, ts)
  | f + 1, .opTok "(" :: ts =>
    match parseTernary f ts with
    | none => none
    | some (e, ts1) =>
      match ts1 with
      | .opTok ")" :: ts2 => some (e, ts2)
      | _ => none
  | f + 1, .opTok "[" :: ts =>
    match ts with
    | .opTok "]" :: ts1 => some (.ListDisp [], ts1)
    | _ =>
      match parseTernary f ts with
      | none => none
      | some (e, ts1) =>
        match ts1 with
        | .kwTok "for" :: .nameTok x :: .kwTok "in" :: ts2 =>
          match parseTernary f ts2 with
          | none => none
          | some (it, ts3) =>
            match ts3 with
            | .opTok "]" :: ts4 => some (.ListComp e x it, ts4)
            | _ => none
        | .opTok "]" :: ts2 => some (.ListDisp [e], ts2)
        | .opTok "," :: ts2 =>
          match ts2 with
          | .opTok "]" :: ts3 => some (.ListDisp [e], ts3)
          | _ =>
            match parseArgs f ts2 with
            | none => none
            | some (es, ts3) =>
              match ts3 with
              | .opTok "]" :: ts4 => some (.ListDisp (e :: es), ts4)
              | _ => none
        | _ => none
  | f + 1, .opTok "\x7b" :: ts =>
    match ts with
    | .opTok "\x7d" :: ts1 => some (.DictDisp, ts1)
    | _ =>
      match parseArgs f ts with
      | none => none
      | some (es, ts1) =>
        match ts1 with
        | .opTok "\x7d" :: ts2 => some (.SetDisp es, ts2)
        | _ => none
  | _ + 1, _ => none

end

/-- Model of `ast.parse(s, mode="eval")`: tokenise, parse one expression,
require all tokens consumed, and wrap the result in the `Expression` node
that eval-mode parsing returns.  `none` stands for the `SyntaxError` (or
`IndentationError`) the real parser raises. -/
def pyParseEval (s : String) : Option Ast :=
  match pyLex s with
  | none => none
  | some toks =>
    match parseTernary (64 * (toks.length + 1)) toks with
    | some (a, []) => some (.Expression a)
    | _ => none

/-- Python's `str.strip()` on a character list (ASCII whitespace). -/
def stripList (l : List Char) : List Char :=
  ((l.dropWhile isWsChar).reverse.dropWhile isWsChar).reverse

/-- Python's `str.strip()`. -/
def pyStrip (s : String) : String := ⟨stripList s.data⟩

/-- Whether the string consists only of (ASCII) whitespace. -/
def wsOnly (s : String) : Bool := s.data.all isWsChar

/-- Whether `needle` occurs at the start of `hay`. -/
def listIsPre : List Char → List Char → Bool
  | [], _ => true
  | _ :: _, [] => false
  | a :: as, b :: bs => a = b && listIsPre as bs

/-- Whether `needle` occurs contiguously anywhere inside `hay` (used to
state what a diagnostic message does or does not contain). -/
def listHasSub (needle : List Char) : List Char → Bool
  | [] => listIsPre needle []
  | c :: t => listIsPre needle (c :: t) || listHasSub needle t

/-- Python's `repr` of a string as interpolated by `f"...{expr!r}"`: single
quotes, or double quotes when the text contains a single quote but no
double quote (escape sequences are outside the modelled subset; no claim
input needs one). -/
def pyRepr (s : String) : String :=
  if s.data.contains '\'' && ¬ s.data.contains '"' then "\"" ++ s ++ "\""
  else "'" ++ s ++ "'"

/-- The argument type of `evaluate`: `Expression = str | int | float` in
`tool.py`, plus `bool`, which Python's runtime happily passes wherever an
`int` is annotated (and which `isinstance(expr, (int, float))` accepts). -/
inductive PyInput where
  | ofStr (s : String)
  | ofInt (n : ℤ)
  | ofFloat (q : ℚ)
  | ofBool (b : Bool)
deriving DecidableEq, Repr

/-- The public entry point `evaluate` of `tool.py`: numeric inputs (ints,
floats — and bools, via the same `isinstance` check) short-circuit to
`float(expr)`; text is stripped, an empty result raises
`ValueError("Empty expression")`, the text is parsed (a `SyntaxError` or
`IndentationError` is re-raised as
`ValueError(f"Invalid expression: {expr!r}")` with the original, unstripped
text), the tree is walked by `_walk`, and the result passes through
`float(...)`. -/
def evaluate : PyInput → Except PyError PyFloat
  | .ofInt n => .ok (.exact (ratOfInt n))
  | .ofFloat q => .ok (.exact q)
  | .ofBool b => .ok (.exact (cond b (mkRat 1 1) (mkRat 0 1)))
  | .ofStr s =>
    let t := pyStrip s
    if t = "" then .error (.valueError "Empty expression")
    else
      match pyParseEval t with
      | none => .error (.valueError ("Invalid expression: " ++ pyRepr s))
      | some a =>
        match walk a with
        | .error e => .error e
        | .ok v => pyFloatConv v

/-- Whether a call to `evaluate` raised (any) failure. -/
def isFailure : Except PyError PyFloat → Bool
  | .error _ => true
  | .ok _ => false

/-- Whether a call to `evaluate` raised a `ValueError`. -/
def isValueErr : Except PyError PyFloat → Bool
  | .error (.valueError _) => true
  | _ => false

/-- Whether a `_walk` result is a `ZeroDivisionError`. -/
def isZeroDivErr : Except PyError PyNum → Bool
  | .error (.zeroDivisionError _) => true
  | _ => false

/-! ### Bridging lemmas

The kernel-computable rational operations above agree with the library
operations on `ℚ`, so the embedding's arithmetic is the genuine rational
arithmetic. -/

theorem ratOfInt_eq (m : ℤ) : ratOfInt m = (m : ℚ) := by
  simp [ratOfInt]

theorem ratOfNat_eq (n : ℕ) : ratOfNat n = (n : ℚ) := by
  simp [ratOfNat]

theorem qAdd_eq (a b : ℚ) : qAdd a b = a + b := by
  rw [qAdd, Rat.mkRat_eq_divInt]
  conv_rhs => rw [← Rat.num_divInt_den a, ← Rat.num_divInt_den b]
  rw [Rat.divInt_add_divInt _ _
    (by exact_mod_cast a.den_ne_zero) (by exact_mod_cast b.den_ne_zero)]
  congr 1 <;> push_cast <;> ring

theorem qSub_eq (a b : ℚ) : qSub a b = a - b := by
  rw [qSub, Rat.mkRat_eq_divInt]
  conv_rhs => rw [← Rat.num_divInt_den a, ← Rat.num_divInt_den b]
  rw [Rat.divInt_sub_divInt _ _
    (by exact_mod_cast a.den_ne_zero) (by exact_mod_cast b.den_ne_zero)]
  congr 1 <;> push_cast <;> ring

theorem qMul_eq (a b : ℚ) : qMul a b = a * b := by
  rw [qMul, Rat.mkRat_eq_divInt]
  conv_rhs => rw [← Rat.num_divInt_den a, ← Rat.num_divInt_den b]
  rw [Rat.divInt_mul_divInt']
  congr 1 <;> push_cast <;> try ring

theorem qNeg_eq (a : ℚ) : qNeg a = -a := by
  rw [qNeg, Rat.mkRat_eq_divInt, Rat.neg_def]

theorem qDiv_eq (a b : ℚ) : qDiv a b = a / b := by
  rw [qDiv, Rat.mkRat_eq_divInt]
  conv_rhs => rw [← Rat.num_divInt_den a, ← Rat.num_divInt_den b]
  rw [Rat.divInt_div_divInt]
  simp only [Int.ofNat_eq_natCast]
  rcases lt_or_le b.num 0 with h | h
  · rw [if_pos h]
    have habs : ((b.num.natAbs : ℕ) : ℤ) = -b.num := by omega
    have hden : ((a.den * b.num.natAbs : ℕ) : ℤ) = -((a.den : ℤ) * b.num) := by
      push_cast [habs]
      ring
    rw [hden, Rat.divInt_neg]
    congr 1 <;> try ring
  · rw [if_neg (not_lt.mpr h)]
    have habs : ((b.num.natAbs : ℕ) : ℤ) = b.num := by omega
    congr 1 <;> push_cast [habs] <;> try ring

theorem ratNpow_eq (q : ℚ) (n : ℕ) : ratNpow q n = q ^ n := by
  induction n with
  | zero => simp [ratNpow]
  | succ k ih => rw [ratNpow, qMul_eq, ih, pow_succ]

theorem ratZpow_eq (q : ℚ) (z : ℤ) : ratZpow q z = q ^ z := by
  rw [ratZpow]
  split
  · rename_i h
    rw [ratNpow_eq, ← zpow_natCast, Int.toNat_of_nonneg h]
  · rename_i h
    rw [qDiv_eq, ratNpow_eq, ← zpow_natCast, Int.toNat_of_nonneg (by omega)]
    rw [show (mkRat 1 1 : ℚ) = 1 by simp, one_div, ← zpow_neg]
    congr 1
    omega

/-! ### Helpers for unfolding `evaluate` and `pyStrip` -/

theorem evaluate_empty (s : String) (h : pyStrip s = "") :
    evaluate (.ofStr s) = .error (.valueError "Empty expression") := by
  simp only [evaluate]
  rw [if_pos h]

theorem evaluate_parse_fail (s : String) (h0 : pyStrip s ≠ "")
    (hp : pyParseEval (pyStrip s) = none) :
    evaluate (.ofStr s) = .error (.valueError ("Invalid expression: " ++ pyRepr s)) := by
  simp only [evaluate]
  rw [if_neg h0, hp]

theorem evaluate_walk_error (s : String) (a : Ast) (e : PyError) (h0 : pyStrip s ≠ "")
    (hp : pyParseEval (pyStrip s) = some a) (hw : walk a = .error e) :
    evaluate (.ofStr s) = .error e := by
  simp only [evaluate]
  rw [if_neg h0, hp]
  simp [hw]

theorem evaluate_walk_ok (s : String) (a : Ast) (v : PyNum) (h0 : pyStrip s ≠ "")
    (hp : pyParseEval (pyStrip s) = some a) (hw : walk a = .ok v) :
    evaluate (.ofStr s) = pyFloatConv v := by
  simp only [evaluate]
  rw [if_neg h0, hp]
  simp [hw]

theorem dropWhile_ws_append (pre x : List Char) (h : ∀ c ∈ pre, isWsChar c = true) :
    (pre ++ x).dropWhile isWsChar = x.dropWhile isWsChar := by
  induction pre with
  | nil => rfl
  | cons a t ih =>
    rw [List.cons_append, List.dropWhile_cons_of_pos (h a (by simp))]
    exact ih (fun c hc => h c (by simp [hc]))

theorem stripList_ws_left (pre x : List Char) (h : ∀ c ∈ pre, isWsChar c = true) :
    stripList (pre ++ x) = stripList x := by
  unfold stripList
  rw [dropWhile_ws_append pre x h]

theorem stripList_ws_right (x post : List Char) (h : ∀ c ∈ post, isWsChar c = true) :
    stripList (x ++ post) = stripList x := by
  unfold stripList
  rcases hd : x.dropWhile isWsChar with _ | ⟨c, t⟩
  · have hx : ∀ c ∈ x, isWsChar c = true := List.dropWhile_eq_nil_iff.mp hd
    have : (x ++ post).dropWhile isWsChar = [] := by
      rw [List.dropWhile_eq_nil_iff]
      intro c hc
      rcases List.mem_append.mp hc with h1 | h2
      · exact hx c h1
      · exact h c h2
    simp only [this, hd]
  · have hne : (x.dropWhile isWsChar).isEmpty = false := by rw [hd]; rfl
    rw [List.dropWhile_append, hne]
    simp only [Bool.false_eq_true, if_false]
    rw [hd, List.reverse_append,
      dropWhile_ws_append post.reverse _ (fun c hc => h c (List.mem_reverse.mp hc))]

theorem pyStrip_ws (pre s post : String) (hpre : wsOnly pre = true)
    (hpost : wsOnly post = true) : pyStrip (pre ++ s ++ post) = pyStrip s := by
  have hdata : (pre ++ s ++ post).data = pre.data ++ (s.data ++ post.data) := by
    rw [String.data_append, String.data_append, List.append_assoc]
  unfold pyStrip
  rw [hdata,
    stripList_ws_left pre.data _ (fun c hc => List.all_eq_true.mp hpre c hc),
    stripList_ws_right s.data _ (fun c hc => List.all_eq_true.mp hpost c hc)]

/-! ### Tokens determine the result

Whitespace placement is invisible past the lexer: the parser and walker
see only the token list, and the lexer discards whitespace before every
token.  The lemmas below make both halves precise. -/

/-- The lexer skips a whitespace block before any token, at any point of
its run: lexing `w ++ rest` (with the fuel covering `w`) is lexing
`rest`.  Inserting or removing whitespace between tokens therefore never
changes the token list. -/
theorem lexAux_ws (w : List Char) : ∀ (fuel : ℕ) (rest : List Char),
    (∀ c ∈ w, isWsChar c = true) →
    lexAux (w.length + fuel) (w ++ rest) = lexAux fuel rest := by
  induction w with
  | nil =>
    intro fuel rest _
    simp
  | cons c w' ih =>
    intro fuel rest h
    have hc : isWsChar c = true := h c (by simp)
    have hlen : (c :: w').length + fuel = (w'.length + fuel) + 1 := by
      simp [List.length_cons]
      omega
    rw [hlen, List.cons_append]
    simp only [lexAux, hc, if_true]
    exact ih fuel rest (fun d hd => h d (by simp [hd]))

theorem parseAtom_nil (f : ℕ) : parseAtom f [] = none := by
  cases f <;> simp [parseAtom]

theorem parseAtomExpr_nil (f : ℕ) : parseAtomExpr f [] = none := by
  cases f <;> simp [parseAtomExpr, parseAtom_nil]

theorem parsePower_nil (f : ℕ) : parsePower f [] = none := by
  cases f <;> simp [parsePower, parseAtomExpr_nil]

theorem parseFactor_nil (f : ℕ) : parseFactor f [] = none := by
  cases f <;> simp [parseFactor, parsePower_nil]

theorem parseTerm_nil (f : ℕ) : parseTerm f [] = none := by
  cases f <;> simp [parseTerm, parseFactor_nil]

theorem parseArith_nil (f : ℕ) : parseArith f [] = none := by
  cases f <;> simp [parseArith, parseTerm_nil]

theorem parseShift_nil (f : ℕ) : parseShift f [] = none := by
  cases f <;> simp [parseShift, parseArith_nil]

theorem parseBitAnd_nil (f : ℕ) : parseBitAnd f [] = none := by
  cases f <;> simp [parseBitAnd, parseShift_nil]

theorem parseBitXor_nil (f : ℕ) : parseBitXor f [] = none := by
  cases f <;> simp [parseBitXor, parseBitAnd_nil]

theorem parseBitOr_nil (f : ℕ) : parseBitOr f [] = none := by
  cases f <;> simp [parseBitOr, parseBitXor_nil]

/-- An empty token list parses to nothing (so an all-whitespace string
can never sneak past the lexer into a value). -/
theorem parseTernary_nil (f : ℕ) : parseTernary f [] = none := by
  cases f <;> simp [parseTernary, parseBitOr_nil]

/-- `ast.parse` (as modelled) depends on the source text only through its
token list. -/
theorem pyParseEval_congr (a b : String) (h : pyLex a = pyLex b) :
    pyParseEval a = pyParseEval b := by
  simp only [pyParseEval, h]

/-! ### Error classification -/

/-- `operator.truediv` can only raise `ZeroDivisionError`. -/
theorem pyDiv_error (a b : PyNum) (e : PyError) (h : pyDiv a b = .error e) :
    ∃ m, e = .zeroDivisionError m := by
  unfold pyDiv at h
  repeat' split at h
  all_goals first
    | exact ⟨_, (Except.error.inj h).symm⟩
    | simp at h

/-- `operator.pow` can only raise `ZeroDivisionError`. -/
theorem pyPow_error (a b : PyNum) (e : PyError) (h : pyPow a b = .error e) :
    ∃ m, e = .zeroDivisionError m := by
  unfold pyPow at h
  repeat' split at h
  all_goals first
    | exact ⟨_, (Except.error.inj h).symm⟩
    | simp at h

/-- Every error `_walk` raises is a `ValueError` (its own validation
failures) or a `ZeroDivisionError` (raised inside `operator.truediv` /
`operator.pow`); in particular `_walk` never raises anything a
`ValueError`-catching caller and a `ZeroDivisionError` case cannot
between them observe. -/
theorem walkErrorKinds : (a : Ast) → (e : PyError) → walk a = .error e →
    (∃ m, e = .valueError m) ∨ (∃ m, e = .zeroDivisionError m)
  | .Expression b, e, h => walkErrorKinds b e (by simpa [walk] using h)
  | .BinOp op l r, e, h => by
    simp only [walk] at h
    cases hl : walk l with
    | error e1 =>
      rw [hl] at h
      simp only [Except.error.injEq] at h
      exact h ▸ walkErrorKinds l e1 hl
    | ok vl =>
      rw [hl] at h
      cases hr : walk r with
      | error e2 =>
        rw [hr] at h
        simp only [Except.error.injEq] at h
        exact h ▸ walkErrorKinds r e2 hr
      | ok vr =>
        rw [hr] at h
        cases op <;> simp only [OPERATORS] at h <;>
          first
            | exact .inr (pyDiv_error vl vr e h)
            | exact .inr (pyPow_error vl vr e h)
            | exact .inl ⟨_, (Except.error.inj h).symm⟩
            | simp at h
  | .UnaryOp op c, e, h => by
    simp only [walk] at h
    cases hc : walk c with
    | error e1 =>
      rw [hc] at h
      simp only [Except.error.injEq] at h
      exact h ▸ walkErrorKinds c e1 hc
    | ok v =>
      rw [hc] at h
      cases op <;> simp only [UNARY_OPERATORS] at h <;>
        first
          | exact .inl ⟨_, (Except.error.inj h).symm⟩
          | simp at h
  | .Constant c, e, h => by
    cases c <;> simp only [walk] at h <;>
      first
        | exact .inl ⟨_, (Except.error.inj h).symm⟩
        | simp at h
  | .Name i, e, h => .inl ⟨_, (Except.error.inj h).symm⟩
  | .Call f args, e, h => .inl ⟨_, (Except.error.inj h).symm⟩
  | .IfExp t b o, e, h => .inl ⟨_, (Except.error.inj h).symm⟩
  | .ListDisp es, e, h => .inl ⟨_, (Except.error.inj h).symm⟩
  | .SetDisp es, e, h => .inl ⟨_, (Except.error.inj h).symm⟩
  | .DictDisp, e, h => .inl ⟨_, (Except.error.inj h).symm⟩
  | .ListComp el t it, e, h => .inl ⟨_, (Except.error.inj h).symm⟩

/-- A division node whose right operand evaluated to (Python) zero raises
`ZeroDivisionError` (provided the left operand itself evaluated normally —
Python evaluates it first). -/
theorem walk_div_zero (l r : Ast) (vl vr : PyNum) (hl : walk l = .ok vl)
    (hr : walk r = .ok vr) (hz : vr.qVal = some 0) :
    walk (.BinOp .Div l r) = .error (.zeroDivisionError
      (if vl = .complexV then "complex division by zero"
       else if vl.isIntLike && vr.isIntLike then "division by zero"
       else "float division by zero")) := by
  simp only [walk, hl, hr, OPERATORS, pyDiv, hz]
  simp

/-- A power node whose base evaluated to a negative number and whose
exponent evaluated to a non-integral float yields a Python `complex`
value (a rational is negative exactly when its numerator is, and integral
exactly when its denominator is `1`). -/
theorem walk_pow_complex (l r : Ast) (vl : PyNum) (x e : ℚ) (hl : walk l = .ok vl)
    (hx : vl.qVal = some x) (hneg : x.num < 0) (hr : walk r = .ok (.floatV e))
    (hfrac : e.den ≠ 1) : walk (.BinOp .Pow l r) = .ok .complexV := by
  simp only [walk, hl, hr, OPERATORS]
  cases vl with
  | intV n =>
    simp only [PyNum.qVal, Option.some.injEq] at hx
    simp only [pyPow, PyNum.toIntZ, PyNum.qVal, hx]
    rw [if_neg hfrac, if_pos hneg]
  | boolV b =>
    simp only [PyNum.qVal, Option.some.injEq] at hx
    simp only [pyPow, PyNum.toIntZ, PyNum.qVal, hx]
    rw [if_neg hfrac, if_pos hneg]
  | floatV q =>
    simp only [PyNum.qVal, Option.some.injEq] at hx
    simp only [pyPow, PyNum.toIntZ, PyNum.qVal, hx]
    rw [if_neg hfrac, if_pos hneg]
  | floatApprox => simp [PyNum.qVal] at hx
  | complexV => simp [PyNum.qVal] at hx

/-! ### The claims -/

/-- C1 (amended): every string in the spec's rejection set — bitwise and
shift operators, floor-division and modulo, names, calls, conditional
expressions, comprehensions, string and collection literals, statements,
empty and all-whitespace input — makes `evaluate` raise a failure; the
original claim's stronger "every syntactic form not in the §4.1 grammar"
is refuted by boolean literals (see the counterexample), which the
`isinstance(value, (int, float))` check lets through. -/
theorem claim_C1_amended :
    (["2 << 3", "2 & 1", "10 // 3", "5 % 3", "x + 1", "round(5.1)",
      "3 if True else 4", "[x for x in [1,2]]", "'foo' + 'bar'",
      "\x7b1,2,3\x7d", "import os", "", "   "].all
      fun s => isFailure (evaluate (.ofStr s))) = true := by decide

/-- C1 (counterexample): `True + 1` is not generated by the §4.1 grammar
(boolean literals are not `NUMBER`s), yet `evaluate` returns the numeric
result `2.0` instead of raising — `bool` passes the `isinstance` check as a
subclass of `int`. -/
theorem claim_C1_counterexample :
    evaluate (.ofStr "True + 1") = .ok (.exact 2) := by decide

/-- C2 (amended): a division whose right operand evaluates to zero raises
an (uncaught) `ZeroDivisionError` — it does not return IEEE `Infinity`;
concretely `evaluate("5 / (2 - 2)")` raises
`ZeroDivisionError("division by zero")`. -/
theorem claim_C2_amended :
    (∀ (l r : Ast) (vl vr : PyNum), walk l = .ok vl → walk r = .ok vr →
      vr.qVal = some 0 →
      ∃ m, walk (.BinOp .Div l r) = .error (.zeroDivisionError m))
    ∧ evaluate (.ofStr "5 / (2 - 2)") = .error (.zeroDivisionError "division by zero") :=
  ⟨fun l r vl vr hl hr hz => ⟨_, walk_div_zero l r vl vr hl hr hz⟩, by decide⟩

/-- C2 (witness for the amended claim): instantiated at the division node
of `1 / 0`. -/
theorem claim_C2_amended_witness :
    isZeroDivErr (walk (.BinOp .Div (.Constant (.intC 1)) (.Constant (.intC 0)))) = true := by
  obtain ⟨m, hm⟩ := claim_C2_amended.1 (.Constant (.intC 1)) (.Constant (.intC 0))
    (.intV 1) (.intV 0) (by decide) (by decide) (by decide)
  rw [hm]
  rfl

/-- C2 (counterexample to the original claim): `evaluate("1 / 0")` raises
`ZeroDivisionError` — it does not return positive infinity (nor any
numeric result). -/
theorem claim_C2_counterexample :
    evaluate (.ofStr "1 / 0") = .error (.zeroDivisionError "division by zero") := by decide

/-- C3 (amended): a power with negative base (negative numerator) and
non-integral exponent (denominator ≠ 1) yields a Python `complex` value —
not NaN — and the final `float(...)` conversion then raises `TypeError`;
concretely `evaluate("(-27) ** (2/3)")` raises
`TypeError("can't convert complex to float")`. -/
theorem claim_C3_amended :
    (∀ (l r : Ast) (vl : PyNum) (x e : ℚ), walk l = .ok vl → vl.qVal = some x →
      x.num < 0 → walk r = .ok (.floatV e) → e.den ≠ 1 →
      walk (.BinOp .Pow l r) = .ok .complexV)
    ∧ pyFloatConv .complexV = .error (.typeError "can't convert complex to float")
    ∧ evaluate (.ofStr "(-27) ** (2/3)") =
        .error (.typeError "can't convert complex to float") :=
  ⟨fun l r vl x e hl hx hneg hr hfrac => walk_pow_complex l r vl x e hl hx hneg hr hfrac,
   rfl, by decide⟩

/-- C3 (witness for the amended claim): instantiated at base `-8` and
exponent `1/3`. -/
theorem claim_C3_amended_witness :
    walk (.BinOp .Pow (.Constant (.intC (-8))) (.Constant (.floatC (mkRat 1 3)))) =
      .ok .complexV :=
  claim_C3_amended.1 _ _ (.intV (-8)) (ratOfInt (-8)) (mkRat 1 3)
    (by decide) (by decide) (by decide) (by decide) (by decide)

/-- C3 (counterexample to the original claim): `evaluate("(-8) ** (1/3)")`
raises `TypeError` (the power is a `complex`, which `float()` rejects) —
it does not return a NaN float. -/
theorem claim_C3_counterexample :
    evaluate (.ofStr "(-8) ** (1/3)") =
      .error (.typeError "can't convert complex to float") := by decide

/-- C4 (amended): a literal token that is neither numeric nor boolean —
a string, or `None` — raises the `UnsupportedLiteral`-kind
`ValueError("Unsupported constant type: ...")`; boolean literals, however,
pass the `isinstance(value, (int, float))` check (as `bool` subclasses
`int`) and evaluate to `1.0`/`0.0` rather than raising. -/
theorem claim_C4_amended :
    (∀ s, walk (.Constant (.strC s)) =
      .error (.valueError "Unsupported constant type: str"))
    ∧ walk (.Constant .noneC) = .error (.valueError "Unsupported constant type: NoneType")
    ∧ evaluate (.ofStr "'foo'") = .error (.valueError "Unsupported constant type: str")
    ∧ (∀ b, walk (.Constant (.boolC b)) = .ok (.boolV b))
    ∧ evaluate (.ofStr "False") = .ok (.exact 0) :=
  ⟨fun _ => rfl, rfl, by decide, fun _ => rfl, by decide⟩

/-- C4 (counterexample to the original claim): the boolean literal `True`
in the position of a number does NOT raise an `UnsupportedLiteral`
failure — `evaluate("True")` returns `1.0`. -/
theorem claim_C4_counterexample :
    evaluate (.ofStr "True") = .ok (.exact 1) := by decide

/-- C5: the power operator is right-associative — `evaluate("2 ** 3 ** 2")`
is `2 ** (3 ** 2) = 512.0`, while `evaluate("(2 ** 3) ** 2")` is `64.0`. -/
theorem claim_C5 :
    evaluate (.ofStr "2 ** 3 ** 2") = .ok (.exact 512)
    ∧ evaluate (.ofStr "(2 ** 3) ** 2") = .ok (.exact 64) :=
  ⟨by decide, by decide⟩

/-- C6: an input that is already numeric (int or float) short-circuits —
it is returned as a float without any parsing; `evaluate(5)`,
`evaluate(5.0)` and `evaluate("5")` all return `5.0`, and the passthrough
holds for every numeric input. -/
theorem claim_C6 :
    evaluate (.ofInt 5) = .ok (.exact 5)
    ∧ evaluate (.ofFloat 5) = .ok (.exact 5)
    ∧ evaluate (.ofStr "5") = .ok (.exact 5)
    ∧ (∀ n : ℤ, evaluate (.ofInt n) = .ok (.exact (ratOfInt n)))
    ∧ (∀ q : ℚ, evaluate (.ofFloat q) = .ok (.exact q)) :=
  ⟨by decide, by decide, by decide, fun _ => rfl, fun _ => rfl⟩

/-- C7 (amended): only the `SyntaxError`-kind failure carries the original
input text (via `f"Invalid expression: {expr!r}"`); `EmptyInput` carries
the fixed message `"Empty expression"`, and the `DisallowedConstruct` /
`UnsupportedLiteral` kinds carry the offending node-class or value-type
NAME (e.g. `Invert`, `str`), not the input text. -/
theorem claim_C7_amended :
    (∀ s, pyStrip s ≠ "" → pyParseEval (pyStrip s) = none →
      evaluate (.ofStr s) = .error (.valueError ("Invalid expression: " ++ pyRepr s)))
    ∧ evaluate (.ofStr "1 +") = .error (.valueError "Invalid expression: '1 +'")
    ∧ listHasSub "1 +".data "Invalid expression: '1 +'".data = true
    ∧ (∀ s, pyStrip s = "" →
        evaluate (.ofStr s) = .error (.valueError "Empty expression"))
    ∧ evaluate (.ofStr "~5") = .error (.valueError "Unsupported unary operator: Invert")
    ∧ evaluate (.ofStr "'a'") = .error (.valueError "Unsupported constant type: str") :=
  ⟨evaluate_parse_fail, by decide, by decide, evaluate_empty, by decide, by decide⟩

/-- C7 (witness for the amended claim): the syntax-failure conjunct
instantiated at `"1 -"`, and the empty-input conjunct at `" "`. -/
theorem claim_C7_amended_witness :
    evaluate (.ofStr "1 -") = .error (.valueError "Invalid expression: '1 -'")
    ∧ evaluate (.ofStr " ") = .error (.valueError "Empty expression") :=
  ⟨claim_C7_amended.1 "1 -" (by decide) rfl, claim_C7_amended.2.2.2.1 " " rfl⟩

/-- C7 (counterexample to the original claim): the failure raised for
`"x + 1"` is `ValueError("Unsupported AST node: Name")`, whose message
does not contain the original text `"x + 1"` (nor the offending sub-text
`"x"` with its surrounding expression). -/
theorem claim_C7_counterexample :
    evaluate (.ofStr "x + 1") = .error (.valueError "Unsupported AST node: Name")
    ∧ listHasSub "x + 1".data "Unsupported AST node: Name".data = false :=
  ⟨by decide, by decide⟩

/-- C8: insignificant whitespace — leading, trailing, or between tokens,
whether added or removed — never changes the value of a valid expression.
First conjunct: the value depends only on the token sequence, so any two
strings that tokenise identically (i.e. differ exactly by insignificant
whitespace) evaluate to the same value, covering insertion and removal at
any position.  Second conjunct: whitespace between tokens IS insignificant
to the lexer — it discards a whitespace block before any token at any
point of its run.  Third conjunct: in particular, wrapping any valid input
in leading/trailing whitespace preserves its value.  Then the concrete
instances: `evaluate("   5   ") == evaluate("5") == 5.0`,
`evaluate("2+-3") == evaluate("2 + -3")`, and a fully-spaced variant of
the precedence expression. -/
theorem claim_C8 :
    (∀ (s t : String) (v : PyFloat), pyLex (pyStrip s) = pyLex (pyStrip t) →
      evaluate (.ofStr s) = .ok v → evaluate (.ofStr t) = .ok v)
    ∧ (∀ (w rest : List Char) (fuel : ℕ), (∀ c ∈ w, isWsChar c = true) →
        lexAux (w.length + fuel) (w ++ rest) = lexAux fuel rest)
    ∧ (∀ (s pre post : String) (v : PyFloat), wsOnly pre = true → wsOnly post = true →
        evaluate (.ofStr s) = .ok v → evaluate (.ofStr (pre ++ s ++ post)) = .ok v)
    ∧ evaluate (.ofStr "   5   ") = .ok (.exact 5)
    ∧ evaluate (.ofStr "5") = .ok (.exact 5)
    ∧ evaluate (.ofStr "2+-3") = evaluate (.ofStr "2 + -3")
    ∧ evaluate (.ofStr "3+4*2/(1-5)**2") =
        evaluate (.ofStr " 3 + 4 * 2 / ( 1 - 5 ) ** 2 ") := by
  have main : ∀ (s t : String) (v : PyFloat), pyLex (pyStrip s) = pyLex (pyStrip t) →
      evaluate (.ofStr s) = .ok v → evaluate (.ofStr t) = .ok v := by
    intro s t v htok hok
    by_cases h0 : pyStrip s = ""
    · rw [evaluate_empty s h0] at hok
      simp at hok
    · cases hp : pyParseEval (pyStrip s) with
      | none =>
        rw [evaluate_parse_fail s h0 hp] at hok
        simp at hok
      | some a =>
        cases hw : walk a with
        | error e2 =>
          rw [evaluate_walk_error s a e2 h0 hp hw] at hok
          simp at hok
        | ok w =>
          rw [evaluate_walk_ok s a w h0 hp hw] at hok
          have hpe : pyParseEval (pyStrip t) = some a := by
            rw [pyParseEval_congr (pyStrip t) (pyStrip s) htok.symm, hp]
          have h0t : pyStrip t ≠ "" := by
            intro hempty
            have hlex : pyLex (pyStrip t) = some [] := by rw [hempty]; rfl
            have : pyParseEval (pyStrip t) = none := by
              simp only [pyParseEval, hlex, parseTernary_nil]
            rw [this] at hpe
            exact Option.noConfusion hpe
          rw [evaluate_walk_ok t a w h0t hpe hw]
          exact hok
  refine ⟨main, fun w rest fuel h => lexAux_ws w fuel rest h, ?_,
    by decide, by decide, by decide, by decide⟩
  intro s pre post v hpre hpost hok
  exact main s (pre ++ s ++ post) v
    (by rw [pyStrip_ws pre s post hpre hpost]) hok

/-- C8 (witness): the token-determinism conjunct instantiated at the
whitespace-removal pair `"2 + -3"` → `"2+-3"`, and the wrapping conjunct
at `"5"` wrapped in three spaces on both sides. -/
theorem claim_C8_witness :
    evaluate (.ofStr "2+-3") = .ok (.exact (-1))
    ∧ evaluate (.ofStr ("   " ++ "5" ++ "   ")) = .ok (.exact 5) :=
  ⟨claim_C8.1 "2 + -3" "2+-3" (.exact (-1)) (by decide) (by decide),
   claim_C8.2.2.1 "5" "   " "   " (.exact 5) (by decide) (by decide) (by decide)⟩

/-- C9 (implicit): a boolean passed directly as the argument is accepted by
the numeric short-circuit (`bool` is a subclass of `int`), so
`evaluate(True)` returns `1.0` and `evaluate(False)` returns `0.0`. -/
theorem claim_C9 :
    evaluate (.ofBool true) = .ok (.exact 1)
    ∧ evaluate (.ofBool false) = .ok (.exact 0) :=
  ⟨by decide, by decide⟩

/-- C10 (implicit): every parse/validation failure surfaces as a
`ValueError`: a parser `SyntaxError`/`IndentationError` is re-raised as
`ValueError` (first conjunct), empty input raises `ValueError` (second),
everything `_walk` itself raises is a `ValueError` (the only other errors
leaving `_walk` are `ZeroDivisionError`s from arithmetic, third conjunct),
and the `DisallowedConstruct` / `UnsupportedLiteral` kinds are concrete
`ValueError`s (fourth and fifth) — so the four kinds are distinguishable
only by message text, and catching `ValueError` catches all of them. -/
theorem claim_C10 :
    (∀ s, pyStrip s ≠ "" → pyParseEval (pyStrip s) = none →
      ∃ m, evaluate (.ofStr s) = .error (.valueError m))
    ∧ (∀ s, pyStrip s = "" → ∃ m, evaluate (.ofStr s) = .error (.valueError m))
    ∧ (∀ (a : Ast) (e : PyError), walk a = .error e →
        (∃ m, e = .valueError m) ∨ (∃ m, e = .zeroDivisionError m))
    ∧ evaluate (.ofStr "2 ^ 5") =
        .error (.valueError "Unsupported binary operator: BitXor")
    ∧ evaluate (.ofStr "None") =
        .error (.valueError "Unsupported constant type: NoneType") :=
  ⟨fun s h0 hp => ⟨_, evaluate_parse_fail s h0 hp⟩,
   fun s h => ⟨_, evaluate_empty s h⟩,
   fun a e h => walkErrorKinds a e h,
   by decide, by decide⟩

/-- C10 (witness): the syntax-wrap conjunct instantiated at `"2 +"`. -/
theorem claim_C10_witness :
    isValueErr (evaluate (.ofStr "2 +")) = true := by
  obtain ⟨m, hm⟩ := claim_C10.1 "2 +" (by decide) rfl
  rw [hm]
  rfl

end ImpMet
